import Mathlib

/-!
Verification development for the chat-history-backup extension
(`src/index.js`).  The JavaScript source is shallowly embedded below:
JSON values become the inductive `Json`, the IndexedDB object store with
key path `[chatKey, timestamp]` becomes a list of `Backup` records with
key-respecting `put` / `delete` operations, and the asynchronous host
interactions (fetch calls, popups, character switching) become oracle
records whose outcomes parameterise the embedded functions.  Thrown
exceptions are modelled with `Except String`.
-/

set_option maxHeartbeats 1000000

namespace ChatBackup

/-- JSON value, as produced by `response.json()` and stored in IndexedDB.
Object fields keep their insertion order, matching `JSON.stringify`. -/
inductive Json where
  | null : Json
  | bool : Bool → Json
  | num : Int → Json
  | str : String → Json
  | arr : List Json → Json
  | obj : List (String × Json) → Json
deriving Repr

/-- JavaScript truthiness of a value (`undefined` is represented by
`Option.none` at use sites, never inside `Json`). -/
def jsTruthy : Json → Bool
  | .null => false
  | .bool b => b
  | .num n => n != 0
  | .str s => s != ""
  | .arr _ => true
  | .obj _ => true

/-- Field lookup in a JS object literal. -/
def lookupField (fs : List (String × Json)) (k : String) : Option Json :=
  (fs.find? (fun f => f.1 == k)).map (·.2)

/-- Property access through optional chaining (`v?.k`): `null` and
`undefined` receivers yield `undefined`; primitives are boxed and have no
own properties except `length` on strings; arrays expose `length`. -/
def jsPropChain : Json → String → Option Json
  | .null, _ => none
  | .obj fs, k => lookupField fs k
  | .arr xs, k => if k == "length" then some (.num xs.length) else none
  | .str s, k => if k == "length" then some (.num s.length) else none
  | .num _, _ => none
  | .bool _, _ => none

/-- Plain property access (`v.k`): a `null` receiver throws a
`TypeError`; otherwise as `jsPropChain`.  The result `none` models the
JS value `undefined`. -/
def jsGetProp : Json → String → Except String (Option Json)
  | .null, _ => .error "TypeError: cannot read properties of null"
  | v, k => .ok (jsPropChain v k)

/-- Property access on a possibly-`undefined` value (`undefined.k`
throws). -/
def jsGetPropO : Option Json → String → Except String (Option Json)
  | none, _ => .error "TypeError: cannot read properties of undefined"
  | some v, k => jsGetProp v k

/-- Index access `v[0]`: throws on `null`, numeric index on arrays,
string property `"0"` on objects, character on strings, `undefined` on
number/boolean primitives. -/
def jsIndex0 : Json → Except String (Option Json)
  | .null => .error "TypeError: cannot read properties of null"
  | .arr xs => .ok xs.head?
  | .obj fs => .ok (lookupField fs "0")
  | .str s => .ok (if s.isEmpty then none else some (.str (String.singleton (s.get 0))))
  | .num _ => .ok none
  | .bool _ => .ok none

/-- Index assignment `v[0] = x` in strict-mode code: works on arrays and
plain objects, throws a `TypeError` on primitives and `null`. -/
def jsSetIndex0 (v : Json) (x : Json) : Except String Json :=
  match v with
  | .arr [] => .ok (.arr [x])
  | .arr (_ :: rest) => .ok (.arr (x :: rest))
  | .obj fs =>
      .ok (.obj (if (fs.find? (fun f => f.1 == "0")).isSome
                 then fs.map (fun f => if f.1 == "0" then ("0", x) else f)
                 else fs ++ [("0", x)]))
  | _ => .error "TypeError: cannot assign to read only property"

/-- Truthiness of a possibly-`undefined` value. -/
def jsTruthyO : Option Json → Bool
  | none => false
  | some v => jsTruthy v

/-- Strict comparison `v === 0` on a possibly-`undefined` value: true
exactly for the number zero. -/
def jsIsZero : Option Json → Bool
  | some (.num n) => n == 0
  | _ => false

/-- Evaluation of `v || \x7b\x7d` on a possibly-`undefined` value. -/
def jsOrObj (v : Option Json) : Json :=
  match v with
  | some j => if jsTruthy j then j else .obj []
  | none => .obj []

/-- Four lowercase hex digits, as used by `JSON.stringify` for control
characters. -/
def hex4 (n : Nat) : String :=
  let d := fun (k : Nat) => String.singleton (Nat.digitChar (n / 16 ^ k % 16))
  d 3 ++ d 2 ++ d 1 ++ d 0

/-- Escaping of one string character, as `JSON.stringify` does it. -/
def escapeChar (c : Char) : String :=
  if c = '"' then "\\\""
  else if c = '\\' then "\\\\"
  else if c = '\n' then "\\n"
  else if c = '\r' then "\\r"
  else if c = '\t' then "\\t"
  else if c = '\x08' then "\\b"
  else if c = '\x0c' then "\\f"
  else if c.toNat < 32 then "\\u" ++ hex4 c.toNat
  else String.singleton c

/-- A double-quoted, escaped JSON string literal. -/
def quoteStr (s : String) : String :=
  "\"" ++ (s.toList.map escapeChar).foldl (· ++ ·) "" ++ "\""

mutual
/-- Serialization matching `JSON.stringify`: field order is the object's own insertion order,
with no added whitespace. -/
def serialize : Json → String
  | .null => "null"
  | .bool true => "true"
  | .bool false => "false"
  | .num n => toString n
  | .str s => quoteStr s
  | .arr xs => "[" ++ serializeArr xs ++ "]"
  | .obj fs => "\x7b" ++ serializeObj fs ++ "\x7d"

/-- Comma-separated serialization of array elements. -/
def serializeArr : List Json → String
  | [] => ""
  | [x] => serialize x
  | x :: y :: xs => serialize x ++ "," ++ serializeArr (y :: xs)

/-- Comma-separated serialization of object fields. -/
def serializeObj : List (String × Json) → String
  | [] => ""
  | [(k, v)] => quoteStr k ++ ":" ++ serialize v
  | (k, v) :: f :: fs => quoteStr k ++ ":" ++ serialize v ++ "," ++ serializeObj (f :: fs)
end

/-! ## The snapshot data model and the IndexedDB store

The object store `backups_v2` has key path `[chatKey, timestamp]` and a
non-unique secondary index on `chatKey` (`initDatabase`).  It is
modelled as a list of `Backup` records in which the primary key is kept
unique by the `put` operation itself. -/

/-- A stored backup record, as built by `executeBackupLogic_Core`
(step 2, "构建备份对象").  `rawChatData` holds the group message array or
the character `[metadata, ...messages]` array; `groupMetadata` is only
set for group chats (`undefined`, i.e. `none`, otherwise). -/
structure Backup where
  timestamp : Nat
  chatKey : String
  entityName : String
  chatName : String
  entityId : Option String
  isGroup : Bool
  lastMessageId : Nat
  lastMessagePreview : String
  rawChatData : Json
  groupMetadata : Option Json
deriving Repr

/-- The primary key `[chatKey, timestamp]` of a record. -/
def bkey (b : Backup) : String × Nat := (b.chatKey, b.timestamp)

/-- The model of the IndexedDB object store. -/
abbrev Store := List Backup

/-- Model of `saveBackupToDB`: `store.put(backup)` upserts by primary key — any
record with the same `[chatKey, timestamp]` key is overwritten. -/
def saveBackupToDB (b : Backup) (s : Store) : Store :=
  b :: s.filter (fun x => !(bkey x == bkey b))

/-- Model of `getBackupsForChat`: `index('chatKey').getAll(chatKey)`. -/
def getBackupsForChat (chatKey : String) (s : Store) : List Backup :=
  s.filter (fun b => b.chatKey == chatKey)

/-- Model of `getAllBackupKeys`: `store.getAllKeys()`, primary keys only. -/
def getAllBackupKeys (s : Store) : List (String × Nat) :=
  s.map bkey

/-- Model of `deleteBackup(chatKey, timestamp)`: `store.delete([chatKey, timestamp])`. -/
def deleteBackup (chatKey : String) (timestamp : Nat) (s : Store) : Store :=
  s.filter (fun b => !(bkey b == (chatKey, timestamp)))

/-- Model of `getBackupFromDB`: `store.get([chatKey, timestamp])`. -/
def getBackupFromDB (chatKey : String) (timestamp : Nat) (s : Store) : Option Backup :=
  s.find? (fun b => bkey b == (chatKey, timestamp))

/-! ## Host state and configuration -/

/-- The plugin settings (`extension_settings[PLUGIN_NAME]`) after
`initSettings` validation. -/
structure Settings where
  maxTotalBackups : Nat
  backupDebounceDelay : Nat
  debug : Bool
deriving Repr, DecidableEq

/-- The slice of `getContext()` (plus the in-memory `groups` /
`characters` lookups) that the backup path reads.  `chat` is
`Option`al because `context.chat` can be `undefined`; `chatId`
likewise. -/
structure Context where
  groupId : Option String
  characterId : Option Nat
  chatId : Option String
  chat : Option (List Json)
  chatMetadata : Option Json
  /-- Value of `groups?.find(g => g.id === groupId)?.name` -/
  groupName : Option String
  /-- Value of `context.name2` -/
  name2 : Option String
  /-- Whether `characters?.[characterId]` exists -/
  characterFound : Bool
  /-- Value of `characters[characterId].chat` -/
  characterChatFile : Option String
  /-- Value of `groups?.find(g => g.id === entityId)?.chat_metadata` -/
  groupChatMetadata : Option Json
deriving Repr

/-- Outcomes of the two backend fetches used by the backup core. -/
structure Host where
  /-- Outcome of `await fetch('/api/chats/group/get').json()` -/
  groupFetchResult : Except String Json
  /-- Outcome of `await fetch('/api/chats/get').json()` -/
  charFetchResult : Except String Json
deriving Repr

/-- Model of `getCurrentChatKey`: `group_${groupId}_${chatId}` for group chats,
`char_${characterId}_${chatId}` when `characterId !== undefined` and
`chatId` is truthy, `null` otherwise.  An `undefined` `chatId` is
rendered as the string `"undefined"` by the template literal. -/
def getCurrentChatKey (ctx : Context) : Option String :=
  match ctx.groupId with
  | some gid => some ("group_" ++ gid ++ "_" ++ (ctx.chatId.getD "undefined"))
  | none =>
    match ctx.characterId, ctx.chatId with
    | some cid, some chatId =>
        if chatId != "" then some ("char_" ++ toString cid ++ "_" ++ chatId) else none
    | _, _ => none

/-- Result of `getCurrentChatInfo`. -/
structure ChatInfo where
  entityName : String
  chatName : String
  entityId : Option String
  isGroup : Bool
deriving Repr

/-- Substring after the last `'/'` (`chatFile.substring(chatFile.lastIndexOf('/') + 1)`). -/
def afterLastSlash (s : String) : String :=
  ((s.splitOn "/").getLast?).getD s

/-- Behaviour of `s.replace(pat, '')`: with a string pattern it replaces only the first
occurrence. -/
def removeFirst (s pat : String) : String :=
  match s.splitOn pat with
  | [] => s
  | [x] => x
  | x :: y :: rest => x ++ String.intercalate pat (y :: rest)

/-- Model of `getCurrentChatInfo`: display names, entity id and group flag. -/
def getCurrentChatInfo (ctx : Context) : ChatInfo :=
  match ctx.groupId with
  | some gid =>
      { isGroup := true
        entityId := some gid
        entityName := ctx.groupName.getD ("群组 " ++ gid)
        chatName := match ctx.chatId with
          | some c => if c != "" then c else "新聊天"
          | none => "新聊天" }
  | none =>
    match ctx.characterId with
    | some cid =>
        { isGroup := false
          entityId := some (toString cid)
          entityName := (match ctx.name2 with
            | some n => if n != "" then n else "角色 " ++ toString cid
            | none => "角色 " ++ toString cid)
          chatName :=
            if ctx.characterFound ∧ jsTruthyO (ctx.chatId.map .str) then
              let chatFile := match ctx.characterChatFile with
                | some f => if f != "" then f else ctx.chatId.getD ""
                | none => ctx.chatId.getD ""
              removeFirst (afterLastSlash chatFile) ".jsonl"
            else
              (match ctx.chatId with
                | some c => if c != "" then c else "新聊天"
                | none => "新聊天") }
    | none =>
        { isGroup := false, entityId := none
          entityName := "未知实体", chatName := "当前聊天" }

/-- Computation of `lastMessage?.mes?.substring(0, 100) || '(空消息)'` for the last
element of `context.chat`: optional chaining skips `null`/`undefined`
links, but calling `.substring` on a non-string value throws. -/
def previewOf (chat : List Json) : Except String String :=
  match chat.getLast? with
  | none => .ok "(空消息)"
  | some .null => .ok "(空消息)"
  | some m =>
    match jsPropChain m "mes" with
    | none => .ok "(空消息)"
    | some .null => .ok "(空消息)"
    | some (.str s) =>
        let t := String.mk (s.toList.take 100)
        .ok (if t == "" then "(空消息)" else t)
    | some _ => .error "TypeError: substring is not a function"

/-! ## The backup core (`executeBackupLogic_Core`) -/

/-- Structure validation of the character-chat fetch result
(`executeBackupLogic_Core`, "验证数据结构"):

```js
if (!Array.isArray(raw) || raw.length === 0 || !raw[0].chat_metadata) {
    const fallbackMetadata = context.chatMetadata || {};
    if (raw.length === 0) { raw = [fallbackMetadata]; }
    else { raw[0] = raw[0].chat_metadata ? raw[0] : fallbackMetadata; }
}
```

evaluated with JavaScript strict-mode semantics: `raw[0].chat_metadata`
throws on a `null` first element, and both `raw.length` and the
`raw[0] = …` assignment throw when `raw` is `null` or a primitive. -/
def validateCharData (raw : Json) (ctxChatMetadata : Option Json) : Except String Json :=
  let malformedE : Except String Bool :=
    match raw with
    | .arr [] => .ok true
    | .arr (e :: _) =>
        match jsGetProp e "chat_metadata" with
        | .error err => .error err
        | .ok cm => .ok (!jsTruthyO cm)
    | _ => .ok true
  match malformedE with
  | .error err => .error err
  | .ok malformed =>
    if malformed then
      let fallbackMetadata := jsOrObj ctxChatMetadata
      match jsGetProp raw "length" with
      | .error err => .error err
      | .ok lenV =>
        if jsIsZero lenV then .ok (.arr [fallbackMetadata])
        else
        match jsIndex0 raw with
        | .error err => .error err
        | .ok e0 =>
          match jsGetPropO e0 "chat_metadata" with
          | .error err => .error err
          | .ok cm =>
              jsSetIndex0 raw (if jsTruthyO cm then e0.getD .null else fallbackMetadata)
    else .ok raw

/-- The raw chat data fetched in step 1: for groups the message array
and the separately-looked-up group metadata, for characters the
validated `[metadata, ...messages]` value. -/
inductive RawChat where
  | group (messages : Json) (metadata : Json)
  | char (data : Json)
deriving Repr

/-- Truthiness of the fetched value at the `if (!rawChatData)` check
(the group branch rebinds `rawChatData` to an object literal, which is
always truthy). -/
def rawTruthy : RawChat → Bool
  | .group _ _ => true
  | .char j => jsTruthy j

/-- Observable side effects of the embedded functions. -/
inductive Effect where
  | hostFetch (endpoint : String)
  | hostCall (name : String)
  | storePut (key : String × Nat)
  | storeDelete (key : String × Nat)
deriving Repr, DecidableEq

/-- Step 1 of the core: fetch the raw transcript.  Groups call
`/api/chats/group/get` and read `group?.chat_metadata || {}` from
memory; characters require `characters?.[characterId]` to exist, call
`/api/chats/get` and validate the returned shape. -/
def fetchRawChatData (ctx : Context) (host : Host) (isGroup : Bool) :
    Except String RawChat × List Effect :=
  if isGroup then
    match host.groupFetchResult with
    | .error e => (.error e, [.hostFetch "/api/chats/group/get"])
    | .ok msgs => (.ok (.group msgs (jsOrObj ctx.groupChatMetadata)),
                   [.hostFetch "/api/chats/group/get"])
  else
    if !ctx.characterFound then (.error "找不到角色的信息", [])
    else
      match host.charFetchResult with
      | .error e => (.error e, [.hostFetch "/api/chats/get"])
      | .ok raw =>
        match validateCharData raw ctx.chatMetadata with
        | .error e => (.error e, [.hostFetch "/api/chats/get"])
        | .ok data => (.ok (.char data), [.hostFetch "/api/chats/get"])

/-- The candidate snapshot of step 2 ("构建备份对象"). -/
def mkBackup (chatKey : String) (info : ChatInfo) (now : Nat) (lastMsgIndex : Nat)
    (preview : String) (raw : RawChat) : Backup :=
  { timestamp := now
    chatKey
    entityName := info.entityName
    chatName := info.chatName
    entityId := info.entityId
    isGroup := info.isGroup
    lastMessageId := lastMsgIndex
    lastMessagePreview := preview
    rawChatData := match raw with | .group msgs _ => msgs | .char j => j
    groupMetadata := match raw with | .group _ m => some m | .char _ => none }

/-- The comparator `(a, b) => a[1] - b[1]` used on primary keys:
ascending by timestamp.  `Array.prototype.sort` is stable, as is
`List.mergeSort`. -/
def tsLe (a b : String × Nat) : Bool := a.2 ≤ b.2

/-- Step 6 of the core, the retention sweep: if the total key count
exceeds `maxTotalBackups`, sort all primary keys ascending by timestamp
and delete the oldest `count - maxTotalBackups` of them. -/
def retentionSweep (maxTotal : Nat) (s : Store) : Store × List Effect :=
  let keys := getAllBackupKeys s
  if maxTotal < keys.length then
    let sorted := keys.mergeSort tsLe
    let keysToDelete := sorted.take (keys.length - maxTotal)
    (keysToDelete.foldl (fun st k => deleteBackup k.1 k.2 st) s,
     keysToDelete.map Effect.storeDelete)
  else (s, [])

/-- Steps 3–6 of the core: duplicate check by `lastMessageId`
(`findIndex` takes the first match), supersession of a strictly older
record, the `put`, and the retention sweep. -/
def dedupAndStore (cand : Backup) (chatKey : String) (lastMsgIndex : Nat) (maxTotal : Nat)
    (s : Store) : Except String Bool × Store × List Effect :=
  match (getBackupsForChat chatKey s).find? (fun b => b.lastMessageId == lastMsgIndex) with
  | some existing =>
      if existing.timestamp < cand.timestamp then
        let s1 := deleteBackup chatKey existing.timestamp s
        let s2 := saveBackupToDB cand s1
        let (s3, tr) := retentionSweep maxTotal s2
        (.ok true, s3, .storeDelete (chatKey, existing.timestamp) :: .storePut (bkey cand) :: tr)
      else
        (.ok false, s, [])
  | none =>
      let s2 := saveBackupToDB cand s
      let (s3, tr) := retentionSweep maxTotal s2
      (.ok true, s3, .storePut (bkey cand) :: tr)

/-- Result of one run of the core: the returned/thrown value, the store
afterwards, and the effects performed. -/
structure CoreOutcome where
  result : Except String Bool
  store : Store
  trace : List Effect
deriving Repr

/-- Steps 1–6 of the core once the guards and the preview have passed:
fetch the raw transcript, check it for truthiness, build the candidate
snapshot, deduplicate, store, and sweep. -/
def coreFetchAndStore (ctx : Context) (info : ChatInfo) (chatKey : String) (now : Nat)
    (lastMsgIndex : Nat) (preview : String) (settings : Settings) (host : Host)
    (s : Store) : CoreOutcome :=
  match fetchRawChatData ctx host info.isGroup with
  | (.error e, tr) => ⟨.error e, s, tr⟩
  | (.ok raw, tr) =>
    if !rawTruthy raw then ⟨.error "未能从API获取有效的聊天数据", s, tr⟩
    else
      let backup := mkBackup chatKey info now lastMsgIndex preview raw
      match dedupAndStore backup chatKey lastMsgIndex settings.maxTotalBackups s with
      | (res, s', tr2) => ⟨res, s', tr ++ tr2⟩

/-- Model of `executeBackupLogic_Core(settings)`: the full backup cycle.  `now`
is `Date.now()` at entry.  Skips (`return false`) on a missing chat key
or an empty/absent `context.chat`; otherwise builds the candidate,
deduplicates, stores and sweeps.  Thrown errors become `.error`. -/
def executeBackupLogic_Core (ctx : Context) (host : Host) (now : Nat) (settings : Settings)
    (s : Store) : CoreOutcome :=
  match getCurrentChatKey ctx with
  | none => ⟨.ok false, s, []⟩
  | some chatKey =>
    let info := getCurrentChatInfo ctx
    match ctx.chat with
    | none => ⟨.ok false, s, []⟩
    | some chat =>
      if chat.isEmpty then ⟨.ok false, s, []⟩
      else
        let lastMsgIndex := chat.length - 1
        match previewOf chat with
        | .error e => ⟨.error e, s, []⟩
        | .ok preview => coreFetchAndStore ctx info chatKey now lastMsgIndex preview settings host s

/-! ## The Backup Coordinator (`performBackupConditional`, debounce) -/

/-- The process-wide mutable state read and written by the coordinator:
the single-flight flag `isBackupInProgress` and the store. -/
structure GlobalState where
  isBackupInProgress : Bool
  store : Store
deriving Repr

/-- Result of one invocation of `performBackupConditional`: the JS
return value (`none` models the bare `return;` of the single-flight
guard), the updated global state, and the effects performed. -/
structure CondOutcome where
  result : Option Bool
  state : GlobalState
  trace : List Effect
deriving Repr

/-- Model of `performBackupConditional()`: drop the trigger while a cycle is in
progress; skip (returning `false`) on a missing chat key, an
empty/absent chat, or missing settings; otherwise set the flag, run the
core, convert a thrown error into `false` (after the `toastr.error`
prompt), and clear the flag in the `finally` block. -/
def performBackupConditional (ctx : Context) (host : Host) (now : Nat)
    (settings? : Option Settings) (g : GlobalState) : CondOutcome :=
  if g.isBackupInProgress then ⟨none, g, []⟩
  else
    match getCurrentChatKey ctx, ctx.chat with
    | some _, some (_ :: _) =>
        (match settings? with
         | none => ⟨some false, g, []⟩
         | some settings =>
             match executeBackupLogic_Core ctx host now settings g.store with
             | ⟨.ok success, s', tr⟩ => ⟨some success, ⟨false, s'⟩, tr⟩
             | ⟨.error _, s', tr⟩ => ⟨some false, ⟨false, s'⟩, tr⟩)
    | _, _ => ⟨some false, g, []⟩

/-- The ambient debounce timer `backupTimeout`, modelled by the chat key
captured at schedule time (`scheduledChatKey`) of the pending timer, or
`none` when no timer is pending.  `clearTimeout` + `setTimeout` is the
replacement of this value. -/
abbrev DebounceTimer := Option String

/-- Model of `performBackupDebounced()`: capture the chat key at schedule time;
with no valid key or no valid delay setting, clear any pending timer and
bail out; otherwise cancel the pending timer and schedule a new one for
the captured key.  Scheduling itself never evaluates a backup. -/
def performBackupDebounced (currentKey : Option String) (settings? : Option Settings)
    (_pending : DebounceTimer) : DebounceTimer :=
  match currentKey with
  | none => none
  | some scheduledChatKey =>
    match settings? with
    | none => none
    | some _ => some scheduledChatKey

/-- The timer callback: re-read the chat key at fire time, discard the
fire when it differs from the key captured at schedule time, and invoke
`performBackupConditional` (recorded in the returned list) otherwise.
The timer id is nulled in every case. -/
def debounceFire (currentKeyAtFire : Option String) (pending : DebounceTimer) :
    DebounceTimer × List String :=
  match pending with
  | none => (none, [])
  | some scheduledChatKey =>
      if currentKeyAtFire == some scheduledChatKey then (none, [scheduledChatKey])
      else (none, [])

/-- External events driving the debounce machinery: a debounced trigger
(carrying the chat key current at schedule time) or the pending timer
elapsing (carrying the chat key current at fire time). -/
inductive DebEvent where
  | schedule (currentKey : Option String)
  | fire (currentKey : Option String)
deriving Repr, DecidableEq

/-- One debounce event step, returning the new timer state and the chat
keys for which `performBackupConditional` was invoked. -/
def debStep (settings? : Option Settings) (pending : DebounceTimer) :
    DebEvent → DebounceTimer × List String
  | .schedule k => (performBackupDebounced k settings? pending, [])
  | .fire k => debounceFire k pending

/-- Run a sequence of debounce events, accumulating the evaluated chat
keys. -/
def debRun (settings? : Option Settings) (pending : DebounceTimer) :
    List DebEvent → DebounceTimer × List String
  | [] => (pending, [])
  | e :: es =>
      match debStep settings? pending e with
      | (p', ev) =>
          match debRun settings? p' es with
          | (p'', evs) => (p'', ev ++ evs)

/-! ## The Restore Reconstructor (`restoreBackup`) -/

/-- Appending one serialized message line: `jsonlString += JSON.stringify(msg) + '\n'`. -/
def appendLine (acc : String) (m : Json) : String :=
  acc ++ serialize m ++ "\n"

/-- Step 2 of `restoreBackup`: reconstruct the `.jsonl` transcript.
Returns the line string, `metadataToImport` and `messagesToImport`.
Group payloads write the separate metadata record first and then each
message; character payloads extract `rawChatData[0]?.chat_metadata || {}`
and re-wrap it as `{ chat_metadata: … }`, then write `slice(1)`.  A
character payload that is not a non-empty array throws; a truthy
non-array group payload throws at `forEach`. -/
def buildJsonl (b : Backup) : Except String (String × Json × List Json) :=
  if b.isGroup then
    let metadataToImport := jsOrObj b.groupMetadata
    match b.rawChatData with
    | .arr msgs =>
        .ok (msgs.foldl appendLine (serialize metadataToImport ++ "\n"), metadataToImport, msgs)
    | other =>
        if jsTruthy other then .error "TypeError: forEach is not a function"
        else .ok (serialize metadataToImport ++ "\n", metadataToImport, [])
  else
    match b.rawChatData with
    | .arr (first :: rest) =>
        let metadataToImport := jsOrObj (jsPropChain first "chat_metadata")
        .ok (rest.foldl appendLine
              (serialize (.obj [("chat_metadata", metadataToImport)]) ++ "\n"),
             metadataToImport, rest)
    | _ => .error "角色备份数据结构异常，无法构建 .jsonl"

/-- Computation of `entityName.replace(/\s+/g, '_')`: each maximal whitespace run
becomes a single underscore. -/
def replaceWsRuns (s : String) : String :=
  (s.toList.foldl
    (fun (acc : String × Bool) c =>
      if c.isWhitespace then (if acc.2 then acc else (acc.1.push '_', true))
      else (acc.1.push c, false))
    ("", false)).1

/-- Oracle for the host interactions of one `restoreBackup` run. -/
structure RestoreHost where
  /-- Result of the `callGenericPopup` confirmation: `none` is `POPUP_RESULT.CANCELLED`
  (`null`), `some 1` is `AFFIRMATIVE`, `some 2` the custom
  "恢复不保存" button. -/
  confirmResult : Option Int
  /-- Outcome of `await saveChatConditional()` (note: outside the `try` block). -/
  saveCurrentOutcome : Except String Unit
  /-- Value of `getContext()` at entry of the `try` block. -/
  ctx : Context
  /-- Outcome of `await select_group_chats(targetEntityId)` in step 1. -/
  switchGroupOutcome : Except String Unit
  /-- Result of `characters.findIndex(…)` for the target character. -/
  charIndexLookup : Option Nat
  /-- Outcome of `await selectCharacterById(charIndex)` in step 1. -/
  selectCharOutcome : Except String Unit
  /-- Group import (`/api/chats/group/import`): error, or `importResult.res`
  (`none` when the response lacks the expected chat id). -/
  groupImportOutcome : Except String (Option String)
  /-- Result of `characters.find(…)` for the save step. -/
  charFoundForSave : Bool
  /-- Character save (`/api/chats/save`). -/
  charSaveOutcome : Except String Unit
  /-- Step 5: `select_group_chats` / `openCharacterChat` load. -/
  loadOutcome : Except String Unit
  /-- Value of `new Date().toISOString().replace(/[:.]/g, '-')` for the generated
  file name. -/
  nowIso : String
deriving Repr

/-- The generated restore file name
`${entityName.replace(/\s+/g,'_')}_restored_${timestamp}.jsonl`. -/
def restoredFilename (entityName nowIso : String) : String :=
  replaceWsRuns entityName ++ "_restored_" ++ nowIso ++ ".jsonl"

/-- Rendering of `String(context.characterId)` (an `undefined` id
stringifies to `"undefined"`). -/
def charIdString (ctx : Context) : String :=
  match ctx.characterId with
  | some c => toString c
  | none => "undefined"

/-- Step 1 of `restoreBackup`: switch the host's active entity to the
snapshot's owner when it differs, with its own `try`/`catch` (an error
here makes `restoreBackup` return `false`).  Returns the updated
`targetEntityId`. -/
def restoreStep1 (b : Backup) (h : RestoreHost) : Except String (Option String) × List Effect :=
  let targetEntityId0 := b.entityId
  let needsContextSwitch :=
    (b.isGroup && !(h.ctx.groupId == targetEntityId0)) ||
    (!b.isGroup && !(some (charIdString h.ctx) == targetEntityId0))
  if needsContextSwitch then
    if b.isGroup then
      match h.switchGroupOutcome with
      | .error _ => (.error "switch", [.hostCall "select_group_chats"])
      | .ok _ => (.ok targetEntityId0, [.hostCall "select_group_chats", .hostCall "delay"])
    else
      match h.charIndexLookup with
      | none => (.error "switch", [])
      | some charIndex =>
          match h.selectCharOutcome with
          | .error _ => (.error "switch", [.hostCall "selectCharacterById"])
          | .ok _ => (.ok (some (toString charIndex)),
                      [.hostCall "selectCharacterById", .hostCall "delay"])
  else
    (.ok (if !b.isGroup && (h.ctx.characterId).isSome
          then some (charIdString h.ctx) else targetEntityId0), [])

/-- Step 4 of `restoreBackup`: group chats go through the import
endpoint (which must return the new chat id); character chats are saved
as a new file whose name doubles as the new chat id. -/
def restoreStep4 (b : Backup) (h : RestoreHost) (newChatIdForRole : String) :
    Except String String × List Effect :=
  if b.isGroup then
    match h.groupImportOutcome with
    | .error e => (.error ("群组聊天导入失败: " ++ e), [.hostFetch "/api/chats/group/import"])
    | .ok none => (.error "群组聊天导入API未返回预期的聊天ID。",
                   [.hostFetch "/api/chats/group/import"])
    | .ok (some newId) => (.ok newId, [.hostFetch "/api/chats/group/import"])
  else
    if !h.charFoundForSave then (.error "找不到目标角色信息", [])
    else
      match h.charSaveOutcome with
      | .error e => (.error ("保存角色聊天文件失败: " ++ e), [.hostFetch "/api/chats/save"])
      | .ok _ => (.ok newChatIdForRole, [.hostFetch "/api/chats/save"])

/-- The body of the `try` block of `restoreBackup` (steps 1–5).
Every thrown error is reported via `toastr.error` by the enclosing
`catch`, which then returns `false`; that catch is applied by
`restoreBackup` below. -/
def restoreSteps (b : Backup) (h : RestoreHost) : Except String Bool × List Effect :=
  match restoreStep1 b h with
  | (.error _, tr) => (.ok false, tr)  -- inner catch: toastr + return false
  | (.ok _targetEntityId, tr1) =>
    -- Step 2: build the .jsonl string (throws propagate to the outer catch).
    match buildJsonl b with
    | .error e => (.error e, tr1)
    | .ok (_jsonl, _metadataToImport, _messagesToImport) =>
      -- Step 3: File object; step 4: import (group) or save-as-new-file (char).
      let newChatIdForRole := removeFirst (restoredFilename b.entityName h.nowIso) ".jsonl"
      match restoreStep4 b h newChatIdForRole with
      | (.error e, tr4) => (.error e, tr1 ++ tr4)
      | (.ok _newChatIdAfterImport, tr4) =>
        -- Step 5: load the new chat, settle, report success.
        match h.loadOutcome with
        | .error e => (.error ("加载恢复的聊天失败: " ++ e),
                       tr1 ++ tr4 ++ [.hostCall "load"])
        | .ok _ => (.ok true, tr1 ++ tr4 ++ [.hostCall "load", .hostCall "delay"])

/-- Model of `restoreBackup(backupData)`: validity check on the payload fields,
user confirmation (cancel / save-then-restore / restore-without-saving /
unknown), the optional `saveChatConditional` (whose rejection escapes
`restoreBackup`, since it sits outside the `try`), then steps 1–5 with
the outer `catch` converting any thrown error into `false`. -/
def restoreBackup (b : Backup) (h : RestoreHost) (s : Store) :
    Except String Bool × Store × List Effect :=
  if !jsTruthy b.rawChatData && !jsTruthyO b.groupMetadata then
    (.ok false, s, [])
  else
    match h.confirmResult with
    | none => (.ok false, s, [])
    | some r =>
      if r == 1 then
        match h.saveCurrentOutcome with
        | .error e => (.error e, s, [.hostCall "saveChatConditional"])
        | .ok _ =>
            match restoreSteps b h with
            | (.error _, tr) => (.ok false, s, .hostCall "saveChatConditional" :: tr)
            | (.ok v, tr) => (.ok v, s, .hostCall "saveChatConditional" :: tr)
      else if r == 2 then
        match restoreSteps b h with
        | (.error _, tr) => (.ok false, s, tr)
        | (.ok v, tr) => (.ok v, s, tr)
      else
        (.ok false, s, [])

/-! ## Sample values used by the witness theorems -/

/-- A group-chat context with one message. -/
def wCtx : Context :=
  { groupId := some "g", characterId := none, chatId := some "c1"
    chat := some [Json.obj [("mes", Json.str "hello")]]
    chatMetadata := some (Json.obj [])
    groupName := some "My Group", name2 := none
    characterFound := false, characterChatFile := none
    groupChatMetadata := some (Json.obj [("x", Json.num 1)]) }

/-- A context in which the host reports no selected entity at all. -/
def wCtxNoKey : Context :=
  { wCtx with groupId := none, characterId := none }

/-- A host whose group fetch succeeds with a one-message array. -/
def wHost : Host :=
  { groupFetchResult := .ok (Json.arr [Json.obj [("mes", Json.str "hello")]])
    charFetchResult := .ok Json.null }

/-- Valid settings with a cap of three snapshots. -/
def wSettings : Settings :=
  { maxTotalBackups := 3, backupDebounceDelay := 1000, debug := false }

/-- A stored snapshot of the witness conversation at `lastMessageId` 0
with timestamp 50 — older than the witness cycle's `now` of 100. -/
def oldB : Backup :=
  { timestamp := 50, chatKey := "group_g_c1", entityName := "My Group", chatName := "c1"
    entityId := some "g", isGroup := true, lastMessageId := 0, lastMessagePreview := "hello"
    rawChatData := Json.arr [], groupMetadata := some (Json.obj []) }

/-- A four-snapshot store over two conversations, with distinct keys,
used to exercise the retention sweep. -/
def rStore : Store :=
  [ { oldB with chatKey := "char_0_a", timestamp := 10, lastMessageId := 0 },
    { oldB with chatKey := "char_0_a", timestamp := 20, lastMessageId := 1 },
    { oldB with chatKey := "group_g_b", timestamp := 30, lastMessageId := 0 },
    { oldB with chatKey := "group_g_b", timestamp := 40, lastMessageId := 1 } ]

/-- A character-chat context whose transcript fetch will be exercised. -/
def cCtx : Context :=
  { groupId := none, characterId := some 0, chatId := some "c"
    chat := some [Json.obj [("mes", Json.str "hi")]]
    chatMetadata := some (Json.obj [("m", Json.num 1)])
    groupName := none, name2 := some "Alice"
    characterFound := true, characterChatFile := some "c"
    groupChatMetadata := none }

/-- A host whose character fetch returns a non-array JSON value. -/
def cHostBadShape : Host :=
  { groupFetchResult := .ok Json.null, charFetchResult := .ok (Json.obj []) }

/-- Classification of an effect as a persistent-store write or
deletion. -/
def isStoreWrite : Effect → Bool
  | .storePut _ => true
  | .storeDelete _ => true
  | .hostFetch _ => false
  | .hostCall _ => false

/-! ## Claim theorems -/

/-- C3: an invocation of `performBackupConditional` while a cycle is
already in progress returns immediately with the bare `return`
(modelled as `none`), leaves the global state — flag and store —
exactly as it was, and performs no effect at all: no store write, no
deletion, no host accessor call.  The trigger is dropped, not queued. -/
theorem conditional_drops_trigger_when_in_progress (ctx : Context) (host : Host) (now : Nat)
    (settings? : Option Settings) (g : GlobalState) (h : g.isBackupInProgress = true) :
    performBackupConditional ctx host now settings? g = ⟨none, g, []⟩ := by
  simp [performBackupConditional, h]

/-- Witness for C3 at a concrete in-progress state. -/
theorem conditional_drops_trigger_when_in_progress_witness :
    (GlobalState.mk true []).isBackupInProgress = true ∧
    performBackupConditional wCtx wHost 100 (some wSettings) ⟨true, []⟩ =
      ⟨none, ⟨true, []⟩, []⟩ :=
  ⟨rfl, conditional_drops_trigger_when_in_progress wCtx wHost 100 (some wSettings) ⟨true, []⟩ rfl⟩

/-- C4: every invocation of `performBackupConditional` that passes the
single-flight guard (the flag was clear on entry) ends with the flag
clear again, whatever the host does — the inner cycle may succeed, skip
or throw, and the `finally` block still releases the lock. -/
theorem conditional_always_clears_flag (ctx : Context) (host : Host) (now : Nat)
    (settings? : Option Settings) (g : GlobalState) (h : g.isBackupInProgress = false) :
    (performBackupConditional ctx host now settings? g).state.isBackupInProgress = false := by
  unfold performBackupConditional
  rw [h]
  simp only [Bool.false_eq_true, if_false]
  split
  · split
    · exact h
    · split <;> rfl
  · exact h

/-- Witness for C4: a concrete idle state, with a host that makes the
inner cycle throw (`charFetchResult` is an error on a character chat). -/
theorem conditional_always_clears_flag_witness :
    (GlobalState.mk false []).isBackupInProgress = false ∧
    (performBackupConditional
      { wCtx with groupId := none, characterId := some 0, characterFound := true }
      { wHost with charFetchResult := .error "storage unavailable" }
      100 (some wSettings) ⟨false, []⟩).state.isBackupInProgress = false :=
  ⟨rfl, conditional_always_clears_flag _ _ 100 (some wSettings) ⟨false, []⟩ rfl⟩

/-- C7: when the host reports no valid conversation key, or the active
transcript is absent or has zero messages, the cycle is a silent
non-error skip — the core returns `false` (never `.error`), the store
is untouched, no effect is performed, and `performBackupConditional`
likewise returns `false` without touching anything. -/
theorem skip_conditions_are_silent (ctx : Context) (host : Host) (now : Nat) (cfg : Settings)
    (settings? : Option Settings) (s : Store) (g : GlobalState)
    (h : getCurrentChatKey ctx = none ∨ ctx.chat = none ∨ ctx.chat = some []) :
    executeBackupLogic_Core ctx host now cfg s = ⟨.ok false, s, []⟩ ∧
    (g.isBackupInProgress = false →
      performBackupConditional ctx host now settings? g = ⟨some false, g, []⟩) := by
  constructor
  · obtain h | h | h := h <;>
      rcases hck : getCurrentChatKey ctx with _ | ck <;>
      simp_all [executeBackupLogic_Core]
  · intro hflag
    obtain h | h | h := h <;>
      rcases hck : getCurrentChatKey ctx with _ | ck <;>
      simp_all [performBackupConditional]

/-- Witness for C7 at a context with no selected entity. -/
theorem skip_conditions_are_silent_witness :
    getCurrentChatKey wCtxNoKey = none ∧
    executeBackupLogic_Core wCtxNoKey wHost 100 wSettings [] = ⟨.ok false, [], []⟩ ∧
    (GlobalState.mk false []).isBackupInProgress = false ∧
    performBackupConditional wCtxNoKey wHost 100 (some wSettings) ⟨false, []⟩ =
      ⟨some false, ⟨false, []⟩, []⟩ := by
  refine ⟨rfl, ?_, rfl, ?_⟩
  · exact (skip_conditions_are_silent wCtxNoKey wHost 100 wSettings (some wSettings) []
      ⟨false, []⟩ (Or.inl rfl)).1
  · exact (skip_conditions_are_silent wCtxNoKey wHost 100 wSettings (some wSettings) []
      ⟨false, []⟩ (Or.inl rfl)).2 rfl

/-- C5: scheduling a debounced backup cancels any pending timer and
replaces it with one for the key captured at schedule time; at fire
time the current key is re-read and the fire is discarded when it
differs from the captured key.  In the scenario "schedule for `k1`,
switch conversation, schedule for `k2`, timer fires", no evaluation
ever happens for `k1` and exactly one happens for `k2`. -/
theorem debounce_cancels_and_rechecks (cfg : Settings) (k1 k2 : String) (hne : k1 ≠ k2) :
    performBackupDebounced (some k2) (some cfg) (some k1) = some k2
    ∧ (∀ (ck : Option String) (sk : String), ck ≠ some sk →
         debounceFire ck (some sk) = (none, []))
    ∧ debRun (some cfg) none
        [.schedule (some k1), .schedule (some k2), .fire (some k2)] = (none, [k2])
    ∧ (debRun (some cfg) none
        [.schedule (some k1), .schedule (some k2), .fire (some k2)]).2.count k1 = 0
    ∧ (debRun (some cfg) none
        [.schedule (some k1), .schedule (some k2), .fire (some k2)]).2.count k2 = 1 := by
  refine ⟨rfl, ?_, ?_, ?_, ?_⟩
  · intro ck sk h
    simp [debounceFire, h]
  · simp [debRun, debStep, performBackupDebounced, debounceFire]
  · simp [debRun, debStep, performBackupDebounced, debounceFire, List.count_cons,
      List.count_nil, hne, Ne.symm hne]
  · simp [debRun, debStep, performBackupDebounced, debounceFire, List.count_cons,
      List.count_nil]

/-- Witness for C5 with the two distinct keys `"a"` and `"b"`. -/
theorem debounce_cancels_and_rechecks_witness :
    ("a" : String) ≠ "b" ∧
    debRun (some wSettings) none
      [.schedule (some "a"), .schedule (some "b"), .fire (some "b")] = (none, ["b"]) :=
  ⟨by decide, (debounce_cancels_and_rechecks wSettings "a" "b" (by decide)).2.2.1⟩

/-- C6: for a single-owner snapshot with payload
`[ \x7b chat_metadata: \x7b x: 1 \x7d \x7d, m1, m2 ]` the restore
reconstruction produces exactly the line sequence
`{"chat_metadata":{"x":1}}\n`, then `m1` serialized plus `\n`, then
`m2` serialized plus `\n` — field order preserved, no extra or missing
lines. -/
theorem single_owner_roundtrip_lines (b : Backup) (m1 m2 : Json)
    (hg : b.isGroup = false)
    (hr : b.rawChatData =
      .arr [.obj [("chat_metadata", .obj [("x", .num 1)])], m1, m2]) :
    buildJsonl b = .ok
      ("\x7b\"chat_metadata\":\x7b\"x\":1\x7d\x7d\n" ++ serialize m1 ++ "\n"
         ++ serialize m2 ++ "\n",
       .obj [("x", .num 1)], [m1, m2]) := by
  simp only [buildJsonl, hg, hr, Bool.false_eq_true, if_false]
  rfl

/-- Witness for C6 at two concrete messages. -/
theorem single_owner_roundtrip_lines_witness :
    buildJsonl
      { timestamp := 0, chatKey := "char_0_c", entityName := "Alice", chatName := "c"
        entityId := some "0", isGroup := false, lastMessageId := 1, lastMessagePreview := ""
        rawChatData := .arr [.obj [("chat_metadata", .obj [("x", .num 1)])],
          .obj [("mes", .str "a")], .obj [("mes", .str "b")]]
        groupMetadata := none } = .ok
      ("\x7b\"chat_metadata\":\x7b\"x\":1\x7d\x7d\n\x7b\"mes\":\"a\"\x7d\n\x7b\"mes\":\"b\"\x7d\n",
       .obj [("x", .num 1)], [.obj [("mes", .str "a")], .obj [("mes", .str "b")]]) :=
  single_owner_roundtrip_lines _ (.obj [("mes", .str "a")]) (.obj [("mes", .str "b")]) rfl rfl

/-- C10: the reconstructed metadata line of a single-owner snapshot is
an object containing only `chat_metadata` — sibling top-level fields of
the first payload record are dropped, a missing `chat_metadata` field
becomes the empty object, and reconstruction is therefore not the
identity on the first payload record. -/
theorem restore_projects_first_record (b : Backup) (fs : List (String × Json))
    (rest : List Json) (M : Json) (hg : b.isGroup = false) :
    (b.rawChatData = .arr (.obj fs :: rest) → lookupField fs "chat_metadata" = some M →
       jsTruthy M = true →
       buildJsonl b = .ok
         (rest.foldl appendLine (serialize (.obj [("chat_metadata", M)]) ++ "\n"), M, rest))
    ∧ (b.rawChatData = .arr (.obj fs :: rest) → lookupField fs "chat_metadata" = none →
       buildJsonl b = .ok
         (rest.foldl appendLine "\x7b\"chat_metadata\":\x7b\x7d\x7d\n", .obj [], rest))
    ∧ serialize (.obj [("chat_metadata", .obj [("x", .num 1)])]) ≠
        serialize (.obj [("chat_metadata", .obj [("x", .num 1)]), ("extra", .num 2)]) := by
  refine ⟨?_, ?_, by decide⟩
  · intro hr hm htr
    simp only [buildJsonl, hg, hr, Bool.false_eq_true, if_false]
    simp [jsPropChain, hm, jsOrObj, htr]
  · intro hr hm
    simp only [buildJsonl, hg, hr, Bool.false_eq_true, if_false]
    simp [jsPropChain, hm, jsOrObj]
    rfl

/-- Witness for C10: a first record carrying a sibling field next to
`chat_metadata`, whose sibling is dropped by reconstruction. -/
theorem restore_projects_first_record_witness :
    buildJsonl
      { timestamp := 0, chatKey := "char_0_c", entityName := "Alice", chatName := "c"
        entityId := some "0", isGroup := false, lastMessageId := 0, lastMessagePreview := ""
        rawChatData := .arr [.obj [("chat_metadata", .obj [("x", .num 1)]), ("extra", .num 2)]]
        groupMetadata := none } = .ok
      ("\x7b\"chat_metadata\":\x7b\"x\":1\x7d\x7d\n", .obj [("x", .num 1)], []) :=
  (restore_projects_first_record _ [("chat_metadata", .obj [("x", .num 1)]), ("extra", .num 2)]
      [] (.obj [("x", .num 1)]) rfl).1 rfl rfl rfl

/-- C8 counterexample: a character-chat cycle whose transcript endpoint
returns a plain (non-array) object makes the snapshot builder throw a
`TypeError` instead of substituting the cached metadata — the cycle
fails rather than producing a snapshot, refuting the claim for
non-array shapes. -/
theorem builder_throws_on_nonarray_shape :
    (executeBackupLogic_Core cCtx cHostBadShape 100 wSettings []).result =
      .error "TypeError: cannot read properties of undefined" ∧
    validateCharData (Json.obj []) (some (Json.obj [("m", Json.num 1)])) =
      .error "TypeError: cannot read properties of undefined" :=
  ⟨rfl, rfl⟩

/-- C8 amended: the fallback to the host's cached metadata does work
for an empty array (which becomes `[fallback]`), for a non-array value
whose `length` property is the number 0 (same branch), and for a
non-empty array whose first element is non-`null` and lacks a truthy
`chat_metadata` field (that first element is replaced by the cached
metadata), after which the cycle proceeds in each case. -/
theorem builder_fallback_on_malformed_array (ctxMeta : Option Json) (e : Json)
    (rest : List Json) (hn : e ≠ .null)
    (hcm : ∀ v, jsPropChain e "chat_metadata" = some v → jsTruthy v = false) :
    validateCharData (.arr []) ctxMeta = .ok (.arr [jsOrObj ctxMeta])
    ∧ validateCharData (.obj [("length", .num 0)]) ctxMeta = .ok (.arr [jsOrObj ctxMeta])
    ∧ validateCharData (.arr (e :: rest)) ctxMeta = .ok (.arr (jsOrObj ctxMeta :: rest)) := by
  refine ⟨rfl, rfl, ?_⟩
  · have hstep : ∀ cm : Option Json, jsGetProp e "chat_metadata" = .ok cm →
        jsTruthyO cm = false →
        validateCharData (.arr (e :: rest)) ctxMeta = .ok (.arr (jsOrObj ctxMeta :: rest)) := by
      intro cm hcmE htr
      simp only [validateCharData]
      rw [hcmE]
      simp only [htr, Bool.not_false, if_true]
      rw [show jsGetProp (Json.arr (e :: rest)) "length"
            = Except.ok (some (Json.num ((rest.length : Int) + 1))) from by
          simp [jsGetProp, jsPropChain]]
      dsimp only
      rw [show jsIsZero (some (Json.num ((rest.length : Int) + 1))) = false from by
          simp [jsIsZero]
          omega]
      simp only [Bool.false_eq_true, if_false]
      rw [show jsIndex0 (Json.arr (e :: rest)) = Except.ok (some e) from rfl]
      dsimp only
      simp only [jsGetPropO]
      rw [hcmE]
      dsimp only
      simp only [htr, Bool.false_eq_true, if_false, jsSetIndex0]
    cases e with
    | null => exact absurd rfl hn
    | obj fs =>
        rcases hl : lookupField fs "chat_metadata" with _ | v
        · exact hstep none (by simp [jsGetProp, jsPropChain, hl]) rfl
        · exact hstep (some v) (by simp [jsGetProp, jsPropChain, hl])
            (hcm v (by simp [jsPropChain, hl]))
    | bool v => exact hstep none rfl rfl
    | num n => exact hstep none rfl rfl
    | str s => exact hstep none (by simp [jsGetProp, jsPropChain]) rfl
    | arr xs => exact hstep none (by simp [jsGetProp, jsPropChain]) rfl

/-- Helper: step 1 of the restore performs no store write or deletion. -/
lemma restoreStep1_no_store_write (b : Backup) (h : RestoreHost) :
    ((restoreStep1 b h).2).all (fun e => !isStoreWrite e) = true := by
  unfold restoreStep1
  dsimp only
  repeat' split
  all_goals rfl

/-- Helper: step 4 of the restore performs no store write or deletion. -/
lemma restoreStep4_no_store_write (b : Backup) (h : RestoreHost) (nid : String) :
    ((restoreStep4 b h nid).2).all (fun e => !isStoreWrite e) = true := by
  unfold restoreStep4
  repeat' split
  all_goals rfl

/-- Helper: the whole `try` body of the restore performs no store write
or deletion. -/
lemma restoreSteps_no_store_write (b : Backup) (h : RestoreHost) :
    ((restoreSteps b h).2).all (fun e => !isStoreWrite e) = true := by
  have h1 := restoreStep1_no_store_write b h
  have h4 := restoreStep4_no_store_write b h
    (removeFirst (restoredFilename b.entityName h.nowIso) ".jsonl")
  unfold restoreSteps
  dsimp only
  repeat' split
  all_goals simp_all [List.all_append, isStoreWrite]

/-- C9: a restore run never writes to or deletes from the persistent
store, whatever the confirmation result, switch/import/save/load
outcomes, or validity of the snapshot — the store after `restoreBackup`
is exactly the store before, and the performed effects contain no store
write and no store deletion, so a failed restore can be retried from
the same stored data. -/
theorem restore_never_touches_store (b : Backup) (h : RestoreHost) (s : Store) :
    (restoreBackup b h s).2.1 = s ∧
    ((restoreBackup b h s).2.2).all (fun e => !isStoreWrite e) = true := by
  have hs := restoreSteps_no_store_write b h
  unfold restoreBackup
  repeat' split
  all_goals try simp_all [isStoreWrite]

/-- Helper: a list whose first `p`-match is `a` and whose `p`-count is
at most one filters down to exactly `[a]`. -/
lemma filter_eq_singleton_of_find? {α : Type} (p : α → Bool) (l : List α) (a : α)
    (hf : l.find? p = some a) (hc : l.countP p ≤ 1) : l.filter p = [a] := by
  induction l with
  | nil => simp at hf
  | cons x xs ih =>
    by_cases hx : p x
    · rw [List.find?_cons_of_pos _ hx] at hf
      injection hf with hf
      subst hf
      rw [List.filter_cons_of_pos hx]
      rw [List.countP_cons_of_pos _ _ hx] at hc
      have h0 : xs.countP p = 0 := by omega
      have hnil : xs.filter p = [] := by
        rw [List.filter_eq_nil_iff]
        exact List.countP_eq_zero.mp h0
      rw [hnil]
    · rw [List.find?_cons_of_neg _ hx] at hf
      rw [List.filter_cons_of_neg hx]
      rw [List.countP_cons_of_neg _ _ hx] at hc
      exact ih hf hc

/-- Helper: under the per-conversation uniqueness invariant, the store
after "delete the superseded record, put the candidate" holds exactly
one record for that `(chatKey, lastMessageId)` pair — the candidate. -/
lemma dedup_unique_after_supersede (s : Store) (ck : String) (idx : Nat) (old cand : Backup)
    (hck : cand.chatKey = ck) (hidx : cand.lastMessageId = idx)
    (h7 : (getBackupsForChat ck s).find? (fun b => b.lastMessageId == idx) = some old)
    (hu : (getBackupsForChat ck s).countP (fun b => b.lastMessageId == idx) ≤ 1) :
    (saveBackupToDB cand (deleteBackup ck old.timestamp s)).filter
      (fun b => b.chatKey == ck && b.lastMessageId == idx) = [cand] := by
  have hsing : (getBackupsForChat ck s).filter (fun b => b.lastMessageId == idx) = [old] :=
    filter_eq_singleton_of_find? _ _ _ h7 hu
  have hock : old.chatKey = ck := by
    have hmem := List.mem_of_find?_eq_some h7
    have := (List.mem_filter.mp hmem).2
    simpa [getBackupsForChat] using this
  have hsfilter : s.filter (fun b => b.chatKey == ck && b.lastMessageId == idx) = [old] := by
    have := hsing
    rw [getBackupsForChat, List.filter_filter] at this
    rw [← this]
    apply List.filter_congr
    intro b _
    exact Bool.and_comm _ _
  have hpredc : (cand.chatKey == ck && cand.lastMessageId == idx) = true := by
    simp [hck, hidx]
  rw [saveBackupToDB, List.filter_cons, if_pos hpredc, deleteBackup]
  rw [List.filter_comm, List.filter_comm _ (fun b => !(bkey b == (ck, old.timestamp)))]
  rw [hsfilter]
  have hk1 : (!(bkey old == (ck, old.timestamp))) = false := by
    simp [bkey, hock]
  rw [List.filter_cons, if_neg (by simp [hk1]), List.filter_nil, List.filter_nil]

/-- C2: inside a cycle whose candidate shares its `lastMessageIndex`
with a stored snapshot of the same conversation, a strictly older
stored snapshot is deleted and the candidate stored (then the retention
sweep runs), while an equal-or-newer one makes the cycle end with
`false` and the store unchanged.  Under the per-conversation
uniqueness invariant this leaves exactly one snapshot at that index —
the candidate, dated `now` — and if the store is within the cap the
sweep leaves that state untouched. -/
theorem dedup_supersedes_or_skips (ctx : Context) (host : Host) (now : Nat) (cfg : Settings)
    (s : Store) (ck : String) (chat : List Json) (pv : String) (raw : RawChat)
    (ftr : List Effect) (old : Backup) (cand : Backup) (s2 : Store)
    (h1 : getCurrentChatKey ctx = some ck)
    (h2 : ctx.chat = some chat)
    (h3 : chat ≠ [])
    (h4 : previewOf chat = .ok pv)
    (h5 : fetchRawChatData ctx host (getCurrentChatInfo ctx).isGroup = (.ok raw, ftr))
    (h6 : rawTruthy raw = true)
    (h7 : (getBackupsForChat ck s).find?
            (fun b => b.lastMessageId == chat.length - 1) = some old)
    (hcand : cand = mkBackup ck (getCurrentChatInfo ctx) now (chat.length - 1) pv raw)
    (hs2 : s2 = saveBackupToDB cand (deleteBackup ck old.timestamp s)) :
    (old.timestamp < now →
       executeBackupLogic_Core ctx host now cfg s =
         ⟨.ok true, (retentionSweep cfg.maxTotalBackups s2).1,
          ftr ++ .storeDelete (ck, old.timestamp) :: .storePut (ck, now) ::
            (retentionSweep cfg.maxTotalBackups s2).2⟩
       ∧ cand ∈ s2 ∧ cand.timestamp = now
       ∧ ((getAllBackupKeys s2).length ≤ cfg.maxTotalBackups →
            (executeBackupLogic_Core ctx host now cfg s).store = s2)
       ∧ ((getBackupsForChat ck s).countP
            (fun b => b.lastMessageId == chat.length - 1) ≤ 1 →
            s2.filter (fun b => b.chatKey == ck && b.lastMessageId == chat.length - 1)
              = [cand]))
    ∧ (¬ old.timestamp < now →
       executeBackupLogic_Core ctx host now cfg s = ⟨.ok false, s, ftr⟩) := by
  have hcore : executeBackupLogic_Core ctx host now cfg s =
      (match dedupAndStore (mkBackup ck (getCurrentChatInfo ctx) now (chat.length - 1) pv raw)
          ck (chat.length - 1) cfg.maxTotalBackups s with
       | (res, s', tr2) => ⟨res, s', ftr ++ tr2⟩) := by
    unfold executeBackupLogic_Core
    rw [h1]
    dsimp only
    rw [h2]
    dsimp only
    rw [if_neg (by simp only [List.isEmpty_iff]; exact h3)]
    rw [h4]
    dsimp only
    unfold coreFetchAndStore
    rw [h5]
    dsimp only
    rw [h6]
    rw [if_neg (by simp)]
  have hkey : bkey (mkBackup ck (getCurrentChatInfo ctx) now (chat.length - 1) pv raw)
      = (ck, now) := rfl
  have hts : (mkBackup ck (getCurrentChatInfo ctx) now (chat.length - 1) pv raw).timestamp
      = now := rfl
  constructor
  · intro hlt
    have hdedup : dedupAndStore
        (mkBackup ck (getCurrentChatInfo ctx) now (chat.length - 1) pv raw)
        ck (chat.length - 1) cfg.maxTotalBackups s =
        (.ok true, (retentionSweep cfg.maxTotalBackups s2).1,
         .storeDelete (ck, old.timestamp) :: .storePut (ck, now) ::
           (retentionSweep cfg.maxTotalBackups s2).2) := by
      rw [hs2, hcand]
      unfold dedupAndStore
      rw [h7]
      dsimp only
      rw [if_pos (show old.timestamp <
            (mkBackup ck (getCurrentChatInfo ctx) now (chat.length - 1) pv raw).timestamp
          from hlt)]
      rcases hsw : retentionSweep cfg.maxTotalBackups
          (saveBackupToDB (mkBackup ck (getCurrentChatInfo ctx) now (chat.length - 1) pv raw)
            (deleteBackup ck old.timestamp s)) with ⟨s3, tr⟩
      rw [hkey]
    refine ⟨?_, ?_, ?_, ?_, ?_⟩
    · rw [hcore, hdedup]
    · rw [hs2, saveBackupToDB]
      exact List.mem_cons_self _ _
    · rw [hcand, hts]
    · intro hlen
      rw [hcore, hdedup]
      show (retentionSweep cfg.maxTotalBackups s2).1 = s2
      unfold retentionSweep
      dsimp only
      rw [if_neg (by omega)]
    · intro hu
      rw [hs2, hcand]
      exact dedup_unique_after_supersede s ck (chat.length - 1) old _ rfl rfl h7 hu
  · intro hge
    have hdedup : dedupAndStore
        (mkBackup ck (getCurrentChatInfo ctx) now (chat.length - 1) pv raw)
        ck (chat.length - 1) cfg.maxTotalBackups s = (.ok false, s, []) := by
      unfold dedupAndStore
      rw [h7]
      dsimp only
      rw [if_neg (show ¬ old.timestamp <
            (mkBackup ck (getCurrentChatInfo ctx) now (chat.length - 1) pv raw).timestamp
          from hge)]
    rw [hcore, hdedup]
    simp

/-- Witness for C8-amended: a first record without `chat_metadata` is
replaced by the cached context metadata. -/
theorem builder_fallback_on_malformed_array_witness :
    validateCharData (.arr [Json.obj [("foo", Json.num 1)], Json.obj [("mes", Json.str "x")]])
        (some (Json.obj [("m", Json.num 2)])) =
      .ok (.arr [Json.obj [("m", Json.num 2)], Json.obj [("mes", Json.str "x")]]) :=
  (builder_fallback_on_malformed_array (some (Json.obj [("m", Json.num 2)]))
      (.obj [("foo", Json.num 1)]) [Json.obj [("mes", Json.str "x")]]
      (fun h => Json.noConfusion h)
      (fun _ hv => Option.noConfusion hv)).2.2

/-- Helper: mapping `bkey` commutes with a key-level filter. -/
lemma getAllBackupKeys_filter (p : String × Nat → Bool) (s : Store) :
    getAllBackupKeys (s.filter (fun b => p (bkey b))) = (getAllBackupKeys s).filter p := by
  induction s with
  | nil => rfl
  | cons x xs ih =>
    simp only [getAllBackupKeys, List.map_cons, List.filter_cons] at *
    by_cases h : p (bkey x) <;> simp [h, ih]

/-- Helper: on a duplicate-free list, filtering out the members of its
own `n`-prefix leaves exactly its `n`-suffix. -/
lemma filter_not_contains_take {α : Type} [BEq α] [LawfulBEq α] (l : List α) (n : Nat)
    (hnd : l.Nodup) :
    l.filter (fun k => !((l.take n).contains k)) = l.drop n := by
  obtain ⟨D, hD⟩ : ∃ D, D = l.take n := ⟨_, rfl⟩
  rw [← hD]
  conv_lhs => rw [← List.take_append_drop n l]
  rw [List.filter_append]
  have h1 : (l.take n).filter (fun k => !(D.contains k)) = [] := by
    rw [List.filter_eq_nil_iff]
    intro a ha
    subst hD
    have hc : (l.take n).contains a = true := List.elem_eq_true_of_mem ha
    simp [hc]
    exact ha
  have h2 : (l.drop n).filter (fun k => !(D.contains k)) = l.drop n := by
    rw [List.filter_eq_self]
    intro a ha
    subst hD
    have hna : a ∉ l.take n := fun hmem =>
      List.disjoint_take_drop hnd (le_refl n) hmem ha
    have hc : (l.take n).contains a = false := by
      cases hcontains : (l.take n).contains a with
      | false => rfl
      | true => exact absurd (List.mem_of_elem_eq_true hcontains) hna
    simp [hc]
    exact hna
  rw [h1, h2, List.nil_append]

/-- Helper: folding `deleteBackup` over a key list (the concurrent
`Promise.all` of deletions) removes exactly the records whose key is in
the list. -/
lemma foldl_deleteBackup (D : List (String × Nat)) (s : Store) :
    D.foldl (fun st k => deleteBackup k.1 k.2 st) s
      = s.filter (fun b => !(D.contains (bkey b))) := by
  induction D generalizing s with
  | nil => simp [List.contains]
  | cons k D ih =>
    rw [List.foldl_cons, ih, deleteBackup, List.filter_filter]
    apply List.filter_congr
    intro b _
    show ((!(D.contains (bkey b))) && (!(bkey b == (k.1, k.2))))
        = (!((k :: D).contains (bkey b)))
    rw [List.contains_cons, Bool.not_or, Prod.mk.eta]
    exact Bool.and_comm _ _

/-- Helper: deletion preserves key uniqueness. -/
lemma nodup_keys_deleteBackup (ck : String) (ts : Nat) (s : Store)
    (h : (getAllBackupKeys s).Nodup) : (getAllBackupKeys (deleteBackup ck ts s)).Nodup := by
  unfold deleteBackup
  rw [getAllBackupKeys_filter (fun k => !(k == (ck, ts))) s]
  exact h.filter _

/-- Helper: the upserting `put` preserves key uniqueness. -/
lemma nodup_keys_saveBackupToDB (b : Backup) (s : Store)
    (h : (getAllBackupKeys s).Nodup) : (getAllBackupKeys (saveBackupToDB b s)).Nodup := by
  unfold saveBackupToDB
  show (bkey b :: getAllBackupKeys (s.filter (fun x => !(bkey x == bkey b)))).Nodup
  rw [getAllBackupKeys_filter (fun k => !(k == bkey b)) s]
  refine List.nodup_cons.mpr ⟨?_, h.filter _⟩
  intro hmem
  have := (List.mem_filter.mp hmem).2
  simp at this

/-- Helper: full specification of one retention sweep on a store with
unique keys — the result holds at most `N` records, its keys are
exactly the timestamp-sorted key list minus its oldest `count - N`
entries, those entries are precisely the issued deletions, and every
deleted key is at most as recent as every surviving one. -/
lemma retentionSweep_spec (N : Nat) (s : Store) (hnd : (getAllBackupKeys s).Nodup) :
    (getAllBackupKeys (retentionSweep N s).1).length ≤ N
    ∧ (getAllBackupKeys (retentionSweep N s).1).Perm
        (((getAllBackupKeys s).mergeSort tsLe).drop ((getAllBackupKeys s).length - N))
    ∧ (retentionSweep N s).2 =
        (((getAllBackupKeys s).mergeSort tsLe).take
          ((getAllBackupKeys s).length - N)).map Effect.storeDelete
    ∧ (∀ d ∈ ((getAllBackupKeys s).mergeSort tsLe).take ((getAllBackupKeys s).length - N),
        ∀ k ∈ ((getAllBackupKeys s).mergeSort tsLe).drop ((getAllBackupKeys s).length - N),
          d.2 ≤ k.2) := by
  have hperm : ((getAllBackupKeys s).mergeSort tsLe).Perm (getAllBackupKeys s) :=
    List.mergeSort_perm _ _
  have hndsorted : ((getAllBackupKeys s).mergeSort tsLe).Nodup :=
    List.Perm.nodup hperm.symm hnd
  have hsortlen : ((getAllBackupKeys s).mergeSort tsLe).length
      = (getAllBackupKeys s).length := hperm.length_eq
  have hpairwise : List.Pairwise (fun a b => tsLe a b = true)
      ((getAllBackupKeys s).mergeSort tsLe) := by
    refine List.sorted_mergeSort ?_ ?_ _
    · intro a b c hab hbc
      simp only [tsLe, decide_eq_true_iff] at *
      omega
    · intro a b
      simp only [tsLe, Bool.or_eq_true, decide_eq_true_iff]
      omega
  have hcross : ∀ d ∈ ((getAllBackupKeys s).mergeSort tsLe).take
        ((getAllBackupKeys s).length - N),
      ∀ k ∈ ((getAllBackupKeys s).mergeSort tsLe).drop ((getAllBackupKeys s).length - N),
        d.2 ≤ k.2 := by
    have hp := hpairwise
    rw [← List.take_append_drop ((getAllBackupKeys s).length - N)
      ((getAllBackupKeys s).mergeSort tsLe)] at hp
    have h3 := (List.pairwise_append.mp hp).2.2
    intro d hd k hk
    have := h3 d hd k hk
    simpa [tsLe, decide_eq_true_iff] using this
  by_cases hN : N < (getAllBackupKeys s).length
  · have hsweep : retentionSweep N s =
        ((((getAllBackupKeys s).mergeSort tsLe).take
            ((getAllBackupKeys s).length - N)).foldl (fun st k => deleteBackup k.1 k.2 st) s,
         (((getAllBackupKeys s).mergeSort tsLe).take
            ((getAllBackupKeys s).length - N)).map Effect.storeDelete) := by
      unfold retentionSweep
      dsimp only
      rw [if_pos hN]
    have hkeys : getAllBackupKeys (retentionSweep N s).1
        = (getAllBackupKeys s).filter
            (fun k => !((((getAllBackupKeys s).mergeSort tsLe).take
              ((getAllBackupKeys s).length - N)).contains k)) := by
      rw [hsweep]
      dsimp only
      rw [foldl_deleteBackup]
      exact getAllBackupKeys_filter
        (fun k => !((((getAllBackupKeys s).mergeSort tsLe).take
          ((getAllBackupKeys s).length - N)).contains k)) s
    have hfiltersorted := filter_not_contains_take ((getAllBackupKeys s).mergeSort tsLe)
      ((getAllBackupKeys s).length - N) hndsorted
    have hpermres : (getAllBackupKeys (retentionSweep N s).1).Perm
        (((getAllBackupKeys s).mergeSort tsLe).drop ((getAllBackupKeys s).length - N)) := by
      rw [hkeys, ← hfiltersorted]
      exact List.Perm.filter _ hperm.symm
    refine ⟨?_, hpermres, ?_, hcross⟩
    · rw [hpermres.length_eq, List.length_drop, hsortlen]
      omega
    · rw [hsweep]
  · have hn0 : (getAllBackupKeys s).length - N = 0 := by omega
    have hsweep : retentionSweep N s = (s, []) := by
      unfold retentionSweep
      dsimp only
      rw [if_neg hN]
    rw [hsweep, hn0, List.take_zero, List.drop_zero]
    refine ⟨by dsimp only; omega, by dsimp only; exact hperm.symm, by simp, by simp⟩

/-- Helper: when the dedup-and-store step reports a successful save,
the resulting store respects the global cap. -/
lemma dedupAndStore_store_bound (cand : Backup) (ck : String) (idx N : Nat) (s : Store)
    (hnd : (getAllBackupKeys s).Nodup) :
    ∀ res s' tr, dedupAndStore cand ck idx N s = (res, s', tr) → res = .ok true →
      (getAllBackupKeys s').length ≤ N := by
  intro res s' tr heq hres
  unfold dedupAndStore at heq
  split at heq
  · next old hfind =>
    split at heq
    · dsimp only at heq
      rcases hsw : retentionSweep N (saveBackupToDB cand (deleteBackup ck old.timestamp s))
        with ⟨s3, t3⟩
      rw [hsw] at heq
      injection heq with h1 h2
      injection h2 with h2 h3
      subst h2
      have := (retentionSweep_spec N (saveBackupToDB cand (deleteBackup ck old.timestamp s))
        (nodup_keys_saveBackupToDB _ _ (nodup_keys_deleteBackup _ _ _ hnd))).1
      rw [hsw] at this
      exact this
    · injection heq with h1 h2
      rw [← h1] at hres
      simp at hres
  · next hfind =>
    dsimp only at heq
    rcases hsw : retentionSweep N (saveBackupToDB cand s) with ⟨s3, t3⟩
    rw [hsw] at heq
    injection heq with h1 h2
    injection h2 with h2 h3
    subst h2
    have := (retentionSweep_spec N (saveBackupToDB cand s)
      (nodup_keys_saveBackupToDB _ _ hnd)).1
    rw [hsw] at this
    exact this

/-- Helper: the fetch-build-store tail of the core respects the cap
whenever it reports a successful save. -/
lemma coreFetchAndStore_store_bound (ctx : Context) (info : ChatInfo) (chatKey : String)
    (now lastMsgIndex : Nat) (preview : String) (cfg : Settings) (host : Host) (s : Store)
    (hnd : (getAllBackupKeys s).Nodup) :
    ∀ out, coreFetchAndStore ctx info chatKey now lastMsgIndex preview cfg host s = out →
      out.result = .ok true →
      (getAllBackupKeys out.store).length ≤ cfg.maxTotalBackups := by
  intro out heq hres
  unfold coreFetchAndStore at heq
  rcases hf : fetchRawChatData ctx host info.isGroup with ⟨fres, ftr⟩
  rw [hf] at heq
  cases fres with
  | error e =>
      try dsimp only at heq
      subst heq
      simp at hres
  | ok raw =>
      try dsimp only at heq
      cases hraw : rawTruthy raw with
      | false =>
          rw [if_pos (by simp [hraw])] at heq
          subst heq
          simp at hres
      | true =>
          rw [if_neg (by simp [hraw])] at heq
          try dsimp only at heq
          rcases hd : dedupAndStore (mkBackup chatKey info now lastMsgIndex preview raw)
              chatKey lastMsgIndex cfg.maxTotalBackups s with ⟨res, s', tr2⟩
          rw [hd] at heq
          subst heq
          dsimp only at hres ⊢
          exact dedupAndStore_store_bound _ _ _ _ s hnd _ _ _ hd hres

/-- Helper: a core cycle that returns `true` leaves at most
`maxTotalBackups` keys in the store. -/
lemma core_store_bound (ctx : Context) (host : Host) (now : Nat) (cfg : Settings) (s : Store)
    (out : CoreOutcome) (heq : executeBackupLogic_Core ctx host now cfg s = out)
    (hnd : (getAllBackupKeys s).Nodup) (hres : out.result = .ok true) :
    (getAllBackupKeys out.store).length ≤ cfg.maxTotalBackups := by
  unfold executeBackupLogic_Core at heq
  dsimp only at heq
  repeat' split at heq
  all_goals first
    | (subst heq; simp at hres)
    | (exact coreFetchAndStore_store_bound _ _ _ _ _ _ cfg host s hnd _ heq hres)

/-- C1: the retention step of a successful cycle enforces the global
cap — afterwards at most `maxTotalBackups` keys remain, the survivors
are exactly the timestamp-sorted key list minus its oldest
`count - maxTotalBackups` entries (which are exactly the issued
deletions, regardless of conversation), every deleted key is no newer
than any survivor, and consequently any cycle whose core returns a
successful save leaves at most `maxTotalBackups` keys. -/
theorem retention_caps_global_count :
    (∀ (N : Nat) (s : Store), (getAllBackupKeys s).Nodup →
       (getAllBackupKeys (retentionSweep N s).1).length ≤ N
       ∧ (getAllBackupKeys (retentionSweep N s).1).Perm
           (((getAllBackupKeys s).mergeSort tsLe).drop ((getAllBackupKeys s).length - N))
       ∧ (retentionSweep N s).2 =
           (((getAllBackupKeys s).mergeSort tsLe).take
             ((getAllBackupKeys s).length - N)).map Effect.storeDelete
       ∧ (∀ d ∈ ((getAllBackupKeys s).mergeSort tsLe).take
             ((getAllBackupKeys s).length - N),
           ∀ k ∈ ((getAllBackupKeys s).mergeSort tsLe).drop
             ((getAllBackupKeys s).length - N),
             d.2 ≤ k.2))
    ∧ (∀ (ctx : Context) (host : Host) (now : Nat) (cfg : Settings) (s : Store)
         (out : CoreOutcome),
        executeBackupLogic_Core ctx host now cfg s = out →
        (getAllBackupKeys s).Nodup → out.result = .ok true →
        (getAllBackupKeys out.store).length ≤ cfg.maxTotalBackups) :=
  ⟨retentionSweep_spec, core_store_bound⟩

/-- Witness for C1: a four-record store swept at cap 3, and a concrete
successful cycle at cap 3. -/
theorem retention_caps_global_count_witness :
    (getAllBackupKeys rStore).Nodup ∧
    (getAllBackupKeys (retentionSweep 3 rStore).1).length ≤ 3 ∧
    (executeBackupLogic_Core wCtx wHost 100 wSettings [oldB]).result = .ok true ∧
    (getAllBackupKeys (executeBackupLogic_Core wCtx wHost 100 wSettings [oldB]).store).length
      ≤ 3 := by
  refine ⟨by decide, (retention_caps_global_count.1 3 rStore (by decide)).1, rfl, ?_⟩
  exact retention_caps_global_count.2 wCtx wHost 100 wSettings [oldB] _ rfl (by decide) rfl

/-- Witness for C2: a concrete supersession run — the stored snapshot
at the same index with timestamp 50 is superseded by the candidate at
timestamp 100 and the cycle succeeds. -/
theorem dedup_supersedes_or_skips_witness :
    oldB.timestamp < 100 ∧
    (executeBackupLogic_Core wCtx wHost 100 wSettings [oldB]).result = .ok true ∧
    mkBackup "group_g_c1" (getCurrentChatInfo wCtx) 100 0 "hello"
        (.group (Json.arr [Json.obj [("mes", Json.str "hello")]]) (Json.obj [("x", Json.num 1)]))
      ∈ saveBackupToDB
          (mkBackup "group_g_c1" (getCurrentChatInfo wCtx) 100 0 "hello"
            (.group (Json.arr [Json.obj [("mes", Json.str "hello")]])
              (Json.obj [("x", Json.num 1)])))
          (deleteBackup "group_g_c1" 50 [oldB]) := by
  have h := dedup_supersedes_or_skips wCtx wHost 100 wSettings [oldB] "group_g_c1"
      [Json.obj [("mes", Json.str "hello")]] "hello"
      (.group (Json.arr [Json.obj [("mes", Json.str "hello")]]) (Json.obj [("x", Json.num 1)]))
      [.hostFetch "/api/chats/group/get"] oldB _ _
      rfl rfl (List.cons_ne_nil _ _) rfl rfl rfl rfl rfl rfl
  refine ⟨by decide, ?_, (h.1 (by decide)).2.1⟩
  rw [(h.1 (by decide)).1]

end ChatBackup
